import Mathlib

/-!
Shallow embedding of the mcp-tools repository (Go): the tool handlers for
shell execution (bash), version-control execution (git), weather lookup
(get_weather) and GitHub repository management (handleRepositoryOperation),
together with the decode step each handler performs on its raw JSON
arguments and the envelope type they return.

Pure Go functions become Lean functions; the external collaborators
(process spawning, the GitHub remote client) become oracle parameters; the
Go two-value (result, error) return becomes a pair with an Option String
for the error. Each handler additionally returns the list of external
invocations it issued (process argument vectors, remote calls), so that
claims about which external calls happen can be stated.
-/

set_option autoImplicit false

namespace McpTools

/-- A parsed JSON value, as encoding/json sees the argument payload. -/
inductive Json where
  | null : Json
  | bool : Bool → Json
  | num : Int → Json
  | str : String → Json
  | arr : List Json → Json
  | obj : List (String × Json) → Json

/-- The raw argument bytes handed to a handler: either malformed JSON text
(which every json.Unmarshal call rejects) or a well-formed JSON value. -/
inductive RawArgs where
  | malformed (text : String) : RawArgs
  | wellFormed (j : Json) : RawArgs

/-- Field lookup with the last-occurrence-wins rule of encoding/json for
duplicate keys in an object. -/
def jsonLookup (fs : List (String × Json)) (key : String) : Option Json :=
  fs.reverse.lookup key

/-- Go json.Unmarshal semantics for a struct field of type string: an
absent key or a JSON null leaves the zero value ""; a JSON string sets the
field; any other value is a type mismatch error. -/
def decodeStrField (fs : List (String × Json)) (key : String) : Except String String :=
  match jsonLookup fs key with
  | none => Except.ok ""
  | some Json.null => Except.ok ""
  | some (Json.str s) => Except.ok s
  | some _ => Except.error ("cannot unmarshal value into field " ++ key ++ " of type string")

/-- Go json.Unmarshal semantics for a struct field of type bool. -/
def decodeBoolField (fs : List (String × Json)) (key : String) : Except String Bool :=
  match jsonLookup fs key with
  | none => Except.ok false
  | some Json.null => Except.ok false
  | some (Json.bool b) => Except.ok b
  | some _ => Except.error ("cannot unmarshal value into field " ++ key ++ " of type bool")

/-- Go json.Unmarshal semantics for one element of a []string value. -/
def decodeStrElem (j : Json) : Except String String :=
  match j with
  | Json.null => Except.ok ""
  | Json.str s => Except.ok s
  | _ => Except.error "cannot unmarshal value into element of type string"

/-- Go json.Unmarshal semantics for a struct field of type []string: an
absent key or JSON null leaves the zero value nil; a JSON array must hold
only strings (or nulls); any other value is a type mismatch error. -/
def decodeStrListField (fs : List (String × Json)) (key : String) :
    Except String (List String) :=
  match jsonLookup fs key with
  | none => Except.ok []
  | some Json.null => Except.ok []
  | some (Json.arr xs) => xs.mapM decodeStrElem
  | some _ => Except.error ("cannot unmarshal value into field " ++ key ++ " of type []string")

/-- One element of the result envelope content sequence
(goai.ToolResultContent): a payload tagged "text" or "json". -/
structure ToolResultContent where
  type : String
  text : String
  deriving DecidableEq

/-- The result envelope (goai.CallToolResult): ordered content sequence
plus the is_error flag. The Go zero value is an empty content list with
is_error=false. -/
structure CallToolResult where
  content : List ToolResultContent
  isError : Bool
  deriving DecidableEq

/-- The goai.CallToolResult zero value returned together with a non-nil
error on decode failure. -/
def emptyResult : CallToolResult := ⟨[], false⟩

/-- Modelled from the spec: the helper returnErrorOutput used by the bash,
git and repository handlers is part of this repository but not under src/.
Per the spec (section 3 case (b), section 7) it wraps a domain error into
an envelope carrying the human-readable error message as a single text
payload with is_error=true. -/
def returnErrorOutput (errMsg : String) : CallToolResult :=
  ⟨[⟨"text", errMsg⟩], true⟩

/-- Outcome of running an external process to completion: the combined
stdout+stderr bytes and the error (none on exit status 0, otherwise the
error message of the exec error, e.g. "exit status 128"). Modelled from
the spec, section 4.3: the CommandExecutor abstraction runs a fully
constructed command and returns its combined output bytes and an error. -/
structure ExecOutcome where
  output : String
  err : Option String
  deriving DecidableEq

/-- An executor oracle: maps the full argument vector (program name first)
to the outcome of running it. Stands for both the real CommandExecutor
variant and the git handler running exec.Cmd.CombinedOutput directly. -/
def Executor : Type := List String → ExecOutcome

/-- The decoded input structure of the bash tool handler. -/
structure BashInput where
  command : String
  args : List String
  deriving DecidableEq

/-- json.Unmarshal of the raw arguments into the bash input struct.
Malformed JSON and non-object non-null top-level values fail; a JSON null
or an object (with fields decoded per Go semantics) succeeds. -/
def decodeBashInput : RawArgs → Except String BashInput
  | RawArgs.malformed t => Except.error ("invalid JSON: " ++ t)
  | RawArgs.wellFormed Json.null => Except.ok ⟨"", []⟩
  | RawArgs.wellFormed (Json.obj fs) => do
      let c ← decodeStrField fs "command"
      let a ← decodeStrListField fs "args"
      Except.ok ⟨c, a⟩
  | RawArgs.wellFormed _ => Except.error "cannot unmarshal value into struct"

/-- The handler of the bash tool (BashAllInOneTool). Decode failure
returns the zero envelope and a non-nil wrapped error; otherwise the
process bash -c command args... is run via the executor; a process error
is wrapped by returnErrorOutput with a nil Go error; success returns one
text content element holding the combined output. The second component is
the list of argument vectors handed to the executor. -/
def BashHandler (ex : Executor) (raw : RawArgs) :
    (CallToolResult × Option String) × List (List String) :=
  match decodeBashInput raw with
  | Except.error e => ((emptyResult, some ("failed to parse input: " ++ e)), [])
  | Except.ok input =>
      let argv := "bash" :: (["-c", input.command] ++ input.args)
      let r := ex argv
      match r.err with
      | some e => ((returnErrorOutput e, none), [argv])
      | none => ((⟨[⟨"text", r.output⟩], false⟩, none), [argv])

/-- Configuration of the Git tool (GitConfig): a default repository path
and a blocked-commands list. Neither field is read by the handler. -/
structure GitConfig where
  defaultRepoPath : String
  blockedCommands : List String
  deriving DecidableEq

/-- The decoded input structure of the git tool handler. -/
structure GitInput where
  command : String
  repoPath : String
  args : List String
  deriving DecidableEq

/-- json.Unmarshal of the raw arguments into the git input struct. -/
def decodeGitInput : RawArgs → Except String GitInput
  | RawArgs.malformed t => Except.error ("invalid JSON: " ++ t)
  | RawArgs.wellFormed Json.null => Except.ok ⟨"", "", []⟩
  | RawArgs.wellFormed (Json.obj fs) => do
      let c ← decodeStrField fs "command"
      let p ← decodeStrField fs "repo_path"
      let a ← decodeStrListField fs "args"
      Except.ok ⟨c, p, a⟩
  | RawArgs.wellFormed _ => Except.error "cannot unmarshal value into struct"

/-- The handler of the git tool (GitAllInOneTool). It captures the GitConfig
of its Git instance but never reads it. Decode failure returns the zero
envelope and a non-nil wrapped error; otherwise the process
git -C repo_path command args... is run and its CombinedOutput taken; a
process error is wrapped by returnErrorOutput with a nil Go error; success
returns one text content element holding the combined output. -/
def GitHandler (cfg : GitConfig) (ex : Executor) (raw : RawArgs) :
    (CallToolResult × Option String) × List (List String) :=
  match decodeGitInput raw with
  | Except.error e => ((emptyResult, some ("failed to unmarshal input: " ++ e)), [])
  | Except.ok input =>
      let args := ["-C", input.repoPath, input.command] ++ input.args
      let argv := "git" :: args
      let r := ex argv
      match r.err with
      | some e => ((returnErrorOutput e, none), [argv])
      | none => ((⟨[⟨"text", r.output⟩], false⟩, none), [argv])

/-- The decoded input structure of the get_weather tool handler. -/
structure WeatherInput where
  location : String
  deriving DecidableEq

/-- json.Unmarshal of the raw arguments into the weather input struct. -/
def decodeWeatherInput : RawArgs → Except String WeatherInput
  | RawArgs.malformed t => Except.error ("invalid JSON: " ++ t)
  | RawArgs.wellFormed Json.null => Except.ok ⟨""⟩
  | RawArgs.wellFormed (Json.obj fs) => do
      let l ← decodeStrField fs "location"
      Except.ok ⟨l⟩
  | RawArgs.wellFormed _ => Except.error "cannot unmarshal value into struct"

/-- The handler of the get_weather tool. Decode failure returns the zero
envelope and the raw non-nil error; otherwise it formats a canned string
and returns it as one text content element. -/
def GetWeatherHandler (raw : RawArgs) : CallToolResult × Option String :=
  match decodeWeatherInput raw with
  | Except.error e => (emptyResult, some e)
  | Except.ok input =>
      (⟨[⟨"text", "Weather in " ++ input.location ++ ": Sunny, 72°F"⟩], false⟩, none)

/-- The decoded input structure of the GitHub repository tool handler.
The Go field Private is named priv here because private is a Lean
keyword. -/
structure RepoInput where
  operation : String
  owner : String
  repo : String
  description : String
  priv : Bool
  branch : String
  sourceBranch : String
  deriving DecidableEq

/-- json.Unmarshal of the raw arguments into the repository input
struct. -/
def decodeRepoInput : RawArgs → Except String RepoInput
  | RawArgs.malformed t => Except.error ("invalid JSON: " ++ t)
  | RawArgs.wellFormed Json.null => Except.ok ⟨"", "", "", "", false, "", ""⟩
  | RawArgs.wellFormed (Json.obj fs) => do
      let op ← decodeStrField fs "operation"
      let ow ← decodeStrField fs "owner"
      let re ← decodeStrField fs "repo"
      let de ← decodeStrField fs "description"
      let pr ← decodeBoolField fs "private"
      let br ← decodeStrField fs "branch"
      let sb ← decodeStrField fs "source_branch"
      Except.ok ⟨op, ow, re, de, pr, br, sb⟩
  | RawArgs.wellFormed _ => Except.error "cannot unmarshal value into struct"

/-- A git ref object as returned by the remote GetRef call; only its
object SHA is read by the handler. -/
structure RefObject where
  sha : String
  deriving DecidableEq

/-- A git reference as sent to the remote CreateRef call: the ref name and
the SHA of the object it points at. -/
structure Reference where
  ref : String
  sha : String
  deriving DecidableEq

/-- The branch protection request sent to the remote
UpdateBranchProtection call: the strict flag of the required status checks
and the required approving review count. -/
structure ProtectionRequest where
  strict : Bool
  requiredApprovingReviewCount : Int
  deriving DecidableEq

/-- The remote GitHub client as an oracle: one function per remote
operation the handler can issue, each returning either a result value (as
the JSON the marshalling step would see) or an error message. -/
structure GitHubClient where
  createRepo : String → String → Bool → Except String Json
  deleteRepo : String → String → Except String Unit
  editRepo : String → String → String → Bool → Except String Json
  createFork : String → String → Except String Json
  listBranches : String → String → Except String Json
  getRef : String → String → String → Except String RefObject
  createRef : String → String → Reference → Except String Json
  updateBranchProtection : String → String → String → ProtectionRequest → Except String Json

/-- A record of one remote call issued by the repository handler, with the
arguments it was issued with. -/
inductive RemoteCall where
  | createRepo (name description : String) (priv : Bool)
  | deleteRepo (owner repo : String)
  | editRepo (owner repo description : String) (priv : Bool)
  | createFork (owner repo : String)
  | listBranches (owner repo : String)
  | getRef (owner repo refName : String)
  | createRef (owner repo : String) (r : Reference)
  | updateBranchProtection (owner repo branch : String) (req : ProtectionRequest)
  deriving DecidableEq

mutual

/-- Modelled from the spec: the helper mustMarshal used by the repository
handler is part of this repository but not under src/. It serializes the
polymorphic result value of the selected sub-operation to its JSON string
(section 4.2: the result slot; section 6: the content text payload). -/
def mustMarshal : Json → String
  | Json.null => "null"
  | Json.bool b => if b then "true" else "false"
  | Json.num n => toString n
  | Json.str s => "\"" ++ s ++ "\""
  | Json.arr xs => "[" ++ marshalElems xs ++ "]"
  | Json.obj fs => "\x7b" ++ marshalFields fs ++ "\x7d"

/-- Serialization of the elements of a JSON array, comma separated. -/
def marshalElems : List Json → String
  | [] => ""
  | [x] => mustMarshal x
  | x :: y :: xs => mustMarshal x ++ "," ++ marshalElems (y :: xs)

/-- Serialization of the fields of a JSON object, comma separated. -/
def marshalFields : List (String × Json) → String
  | [] => ""
  | [(k, v)] => "\"" ++ k ++ "\":" ++ mustMarshal v
  | (k, v) :: f :: fs => "\"" ++ k ++ "\":" ++ mustMarshal v ++ "," ++ marshalFields (f :: fs)

end

/-- Outcome of the switch statement over the operation discriminator. -/
inductive RepoOutcome where
  | done (result : Json)
  | failed (errMsg : String)
  | earlyReturn (res : CallToolResult) (goErr : Option String)

/-- The switch over input.Operation inside handleRepositoryOperation: each
branch of the closed set issues its remote call(s) through the client and
yields the result slot value or the branch error; create_branch first
resolves the source branch ref (returning early with the raw error and
the zero envelope on failure) and then issues CreateRef, whose own error
is discarded (result stays nil on its failure); any other operation string
returns early with the unsupported-operation domain failure. The second
component lists the remote calls issued. -/
def repoSwitch (client : GitHubClient) (input : RepoInput) :
    RepoOutcome × List RemoteCall :=
  if input.operation = "create" then
    match client.createRepo input.repo input.description input.priv with
    | Except.ok j => (RepoOutcome.done j,
        [RemoteCall.createRepo input.repo input.description input.priv])
    | Except.error e => (RepoOutcome.failed e,
        [RemoteCall.createRepo input.repo input.description input.priv])
  else if input.operation = "delete" then
    match client.deleteRepo input.owner input.repo with
    | Except.ok _ => (RepoOutcome.done (Json.obj [("status", Json.str "deleted")]),
        [RemoteCall.deleteRepo input.owner input.repo])
    | Except.error e => (RepoOutcome.failed e,
        [RemoteCall.deleteRepo input.owner input.repo])
  else if input.operation = "update" then
    match client.editRepo input.owner input.repo input.description input.priv with
    | Except.ok j => (RepoOutcome.done j,
        [RemoteCall.editRepo input.owner input.repo input.description input.priv])
    | Except.error e => (RepoOutcome.failed e,
        [RemoteCall.editRepo input.owner input.repo input.description input.priv])
  else if input.operation = "fork" then
    match client.createFork input.owner input.repo with
    | Except.ok j => (RepoOutcome.done j, [RemoteCall.createFork input.owner input.repo])
    | Except.error e => (RepoOutcome.failed e, [RemoteCall.createFork input.owner input.repo])
  else if input.operation = "list_branches" then
    match client.listBranches input.owner input.repo with
    | Except.ok j => (RepoOutcome.done j, [RemoteCall.listBranches input.owner input.repo])
    | Except.error e => (RepoOutcome.failed e, [RemoteCall.listBranches input.owner input.repo])
  else if input.operation = "create_branch" then
    let refName := "refs/heads/" ++ input.sourceBranch
    match client.getRef input.owner input.repo refName with
    | Except.error e => (RepoOutcome.earlyReturn emptyResult (some e),
        [RemoteCall.getRef input.owner input.repo refName])
    | Except.ok refObj =>
        let newRef : Reference := ⟨"refs/heads/" ++ input.branch, refObj.sha⟩
        let result := match client.createRef input.owner input.repo newRef with
          | Except.ok j => j
          | Except.error _ => Json.null
        (RepoOutcome.done result,
          [RemoteCall.getRef input.owner input.repo refName,
           RemoteCall.createRef input.owner input.repo newRef])
  else if input.operation = "protect_branch" then
    let req : ProtectionRequest := ⟨true, 1⟩
    match client.updateBranchProtection input.owner input.repo input.branch req with
    | Except.ok j => (RepoOutcome.done j,
        [RemoteCall.updateBranchProtection input.owner input.repo input.branch req])
    | Except.error e => (RepoOutcome.failed e,
        [RemoteCall.updateBranchProtection input.owner input.repo input.branch req])
  else
    (RepoOutcome.earlyReturn
      (returnErrorOutput ("unsupported operation: " ++ input.operation)) none, [])

/-- The handler of the GitHub repository tool (handleRepositoryOperation).
Decode failure returns the zero envelope and a non-nil wrapped error; an
early return of the switch is passed through; a branch error is wrapped by
returnErrorOutput into an is_error=true envelope with a nil Go error; a
branch result is marshalled and returned as one json content element. The
second component lists the remote calls issued. -/
def handleRepositoryOperation (client : GitHubClient) (raw : RawArgs) :
    (CallToolResult × Option String) × List RemoteCall :=
  match decodeRepoInput raw with
  | Except.error e => ((emptyResult, some ("failed to unmarshal input: " ++ e)), [])
  | Except.ok input =>
      match repoSwitch client input with
      | (RepoOutcome.earlyReturn res goErr, trace) => ((res, goErr), trace)
      | (RepoOutcome.failed e, trace) =>
          ((returnErrorOutput ("github repository " ++ input.operation ++ " error: " ++ e),
            none), trace)
      | (RepoOutcome.done result, trace) =>
          ((⟨[⟨"json", mustMarshal result⟩], false⟩, none), trace)

/-- Whether an Except value is an error. -/
def isErr {α : Type} : Except String α → Bool
  | Except.error _ => true
  | Except.ok _ => false

/-- Whether one character list is a prefix of another. -/
def startsWithChars : List Char → List Char → Bool
  | [], _ => true
  | _ :: _, [] => false
  | a :: as, b :: bs => a == b && startsWithChars as bs

/-- Whether sub occurs as a contiguous run starting at some suffix. -/
def listContainsFrom (sub : List Char) : List Char → Bool
  | [] => startsWithChars sub []
  | c :: cs => startsWithChars sub (c :: cs) || listContainsFrom sub cs

/-- Whether sub occurs as a contiguous substring of s. -/
def strContains (s sub : String) : Bool :=
  listContainsFrom sub.data s.data

/-- A sample executor whose process always succeeds with output "hi". -/
def execHi : Executor := fun _ => ⟨"hi\n", none⟩

/-- A sample executor whose process always fails as git does on a missing
repository: combined output holds the git error text, the exec error is
the exit status. -/
def execGitFail : Executor :=
  fun _ => ⟨"fatal: not a git repository (or any of the parent directories): .git\n",
            some "exit status 128"⟩

/-- A sample remote client on which every operation succeeds. -/
def clientAllOk : GitHubClient :=
  ⟨fun _ _ _ => Except.ok (Json.obj []),
   fun _ _ => Except.ok (),
   fun _ _ _ _ => Except.ok (Json.obj []),
   fun _ _ => Except.ok (Json.obj []),
   fun _ _ => Except.ok (Json.arr []),
   fun _ _ _ => Except.ok ⟨"abc123"⟩,
   fun _ _ _ => Except.ok (Json.obj []),
   fun _ _ _ _ => Except.ok (Json.obj [])⟩

/-- A sample remote client on which ref resolution fails and every other
operation succeeds. -/
def clientRefFail : GitHubClient :=
  ⟨fun _ _ _ => Except.ok (Json.obj []),
   fun _ _ => Except.ok (),
   fun _ _ _ _ => Except.ok (Json.obj []),
   fun _ _ => Except.ok (Json.obj []),
   fun _ _ => Except.ok (Json.arr []),
   fun _ _ _ => Except.error "404 Not Found",
   fun _ _ _ => Except.ok (Json.obj []),
   fun _ _ _ _ => Except.ok (Json.obj [])⟩

/-- A sample remote client on which ref resolution succeeds but ref
creation fails, and every other operation succeeds. -/
def clientCreateRefFail : GitHubClient :=
  ⟨fun _ _ _ => Except.ok (Json.obj []),
   fun _ _ => Except.ok (),
   fun _ _ _ _ => Except.ok (Json.obj []),
   fun _ _ => Except.ok (Json.obj []),
   fun _ _ => Except.ok (Json.arr []),
   fun _ _ _ => Except.ok ⟨"abc123"⟩,
   fun _ _ _ => Except.error "422 Reference already exists",
   fun _ _ _ _ => Except.ok (Json.obj [])⟩

/-- The repository handler issues exactly the remote calls the selected
switch branch issues. -/
theorem repo_trace_eq (client : GitHubClient) (raw : RawArgs) (input : RepoInput)
    (hdec : decodeRepoInput raw = Except.ok input) :
    (handleRepositoryOperation client raw).2 = (repoSwitch client input).2 := by
  rcases hsw : repoSwitch client input with ⟨o, t⟩
  cases o <;> simp [handleRepositoryOperation, hdec, hsw]

/-- Claim C1: for every tool handler (get_weather, bash, git, github
repository) and every argument payload that fails to decode into the
expected input structure, the handler returns a non-nil Go error together
with an envelope whose content sequence is empty. -/
theorem decode_failure_empty_envelope_nonnil_error :
    (∀ (ex : Executor) (raw : RawArgs), isErr (decodeBashInput raw) = true →
      (BashHandler ex raw).1.1.content = [] ∧ (BashHandler ex raw).1.2 ≠ none)
  ∧ (∀ (cfg : GitConfig) (ex : Executor) (raw : RawArgs), isErr (decodeGitInput raw) = true →
      (GitHandler cfg ex raw).1.1.content = [] ∧ (GitHandler cfg ex raw).1.2 ≠ none)
  ∧ (∀ raw : RawArgs, isErr (decodeWeatherInput raw) = true →
      (GetWeatherHandler raw).1.content = [] ∧ (GetWeatherHandler raw).2 ≠ none)
  ∧ (∀ (client : GitHubClient) (raw : RawArgs), isErr (decodeRepoInput raw) = true →
      (handleRepositoryOperation client raw).1.1.content = [] ∧
      (handleRepositoryOperation client raw).1.2 ≠ none) := by
  refine ⟨?_, ?_, ?_, ?_⟩
  · intro ex raw h
    cases hdec : decodeBashInput raw with
    | ok v => rw [hdec] at h; simp [isErr] at h
    | error e => simp [BashHandler, hdec, emptyResult]
  · intro cfg ex raw h
    cases hdec : decodeGitInput raw with
    | ok v => rw [hdec] at h; simp [isErr] at h
    | error e => simp [GitHandler, hdec, emptyResult]
  · intro raw h
    cases hdec : decodeWeatherInput raw with
    | ok v => rw [hdec] at h; simp [isErr] at h
    | error e => simp [GetWeatherHandler, hdec, emptyResult]
  · intro client raw h
    cases hdec : decodeRepoInput raw with
    | ok v => rw [hdec] at h; simp [isErr] at h
    | error e => simp [handleRepositoryOperation, hdec, emptyResult]

/-- Witness for claim C1: the malformed payload "x" fails decoding for all
four tools and each handler returns an empty envelope with a non-nil
error. -/
theorem decode_failure_empty_envelope_nonnil_error_witness :
    ((BashHandler execHi (RawArgs.malformed "x")).1.1.content = [] ∧
      (BashHandler execHi (RawArgs.malformed "x")).1.2 ≠ none)
  ∧ ((GitHandler ⟨"", []⟩ execHi (RawArgs.malformed "x")).1.1.content = [] ∧
      (GitHandler ⟨"", []⟩ execHi (RawArgs.malformed "x")).1.2 ≠ none)
  ∧ ((GetWeatherHandler (RawArgs.malformed "x")).1.content = [] ∧
      (GetWeatherHandler (RawArgs.malformed "x")).2 ≠ none)
  ∧ ((handleRepositoryOperation clientAllOk (RawArgs.malformed "x")).1.1.content = [] ∧
      (handleRepositoryOperation clientAllOk (RawArgs.malformed "x")).1.2 ≠ none) :=
  ⟨decode_failure_empty_envelope_nonnil_error.1 execHi (RawArgs.malformed "x") rfl,
   decode_failure_empty_envelope_nonnil_error.2.1 ⟨"", []⟩ execHi (RawArgs.malformed "x") rfl,
   decode_failure_empty_envelope_nonnil_error.2.2.1 (RawArgs.malformed "x") rfl,
   decode_failure_empty_envelope_nonnil_error.2.2.2 clientAllOk (RawArgs.malformed "x") rfl⟩

/-- Claim C2: for every decoded github-repository input whose operation is
outside the closed set, handleRepositoryOperation returns an is_error=true
envelope with text "unsupported operation: value" and a nil Go error,
never a transport error, and issues no remote call. -/
theorem unsupported_operation_domain_failure
    (client : GitHubClient) (raw : RawArgs) (input : RepoInput)
    (hdec : decodeRepoInput raw = Except.ok input)
    (hop : input.operation ∉ (["create", "delete", "update", "fork",
      "list_branches", "create_branch", "protect_branch"] : List String)) :
    handleRepositoryOperation client raw =
      ((⟨[⟨"text", "unsupported operation: " ++ input.operation⟩], true⟩, none), []) := by
  simp only [List.mem_cons, List.mem_singleton, not_or] at hop
  obtain ⟨h1, h2, h3, h4, h5, h6, h7, -⟩ := hop
  simp [handleRepositoryOperation, hdec, repoSwitch, h1, h2, h3, h4, h5, h6, h7,
    returnErrorOutput]

/-- Witness for claim C2: the operation "merge" is outside the closed set
and yields the unsupported-operation domain failure. -/
theorem unsupported_operation_domain_failure_witness :
    handleRepositoryOperation clientAllOk
      (RawArgs.wellFormed (Json.obj [("operation", Json.str "merge")])) =
      ((⟨[⟨"text", "unsupported operation: merge"⟩], true⟩, none), []) :=
  unsupported_operation_domain_failure clientAllOk
    (RawArgs.wellFormed (Json.obj [("operation", Json.str "merge")]))
    ⟨"merge", "", "", "", false, "", ""⟩ rfl (by decide)

/-- Claim C4: for every create_branch invocation in which the
source-branch ref resolution succeeds, handleRepositoryOperation returns a
success envelope (is_error=false, nil Go error) regardless of the outcome
of the ref-creation call, whose error is discarded. -/
theorem create_branch_discards_second_error
    (client : GitHubClient) (raw : RawArgs) (input : RepoInput) (refObj : RefObject)
    (hdec : decodeRepoInput raw = Except.ok input)
    (hop : input.operation = "create_branch")
    (href : client.getRef input.owner input.repo ("refs/heads/" ++ input.sourceBranch) =
      Except.ok refObj) :
    (handleRepositoryOperation client raw).1.1.isError = false ∧
    (handleRepositoryOperation client raw).1.2 = none := by
  simp [handleRepositoryOperation, hdec, repoSwitch, hop, href]

/-- Witness for claim C4: with a client whose ref creation fails, a
create_branch invocation whose ref resolution succeeds still returns a
success envelope with a nil Go error. -/
theorem create_branch_discards_second_error_witness :
    (handleRepositoryOperation clientCreateRefFail
      (RawArgs.wellFormed (Json.obj [("operation", Json.str "create_branch"),
        ("owner", Json.str "o"), ("repo", Json.str "r"),
        ("branch", Json.str "b"), ("source_branch", Json.str "s")]))).1.1.isError = false ∧
    (handleRepositoryOperation clientCreateRefFail
      (RawArgs.wellFormed (Json.obj [("operation", Json.str "create_branch"),
        ("owner", Json.str "o"), ("repo", Json.str "r"),
        ("branch", Json.str "b"), ("source_branch", Json.str "s")]))).1.2 = none :=
  create_branch_discards_second_error clientCreateRefFail
    (RawArgs.wellFormed (Json.obj [("operation", Json.str "create_branch"),
      ("owner", Json.str "o"), ("repo", Json.str "r"),
      ("branch", Json.str "b"), ("source_branch", Json.str "s")]))
    ⟨"create_branch", "o", "r", "", false, "b", "s"⟩ ⟨"abc123"⟩ rfl rfl rfl

/-- Claim C5: a create_branch invocation whose source-branch ref
resolution fails returns that error as a non-nil Go error with an empty
envelope and never issues the ref-creation call; every other operation of
the closed set issues exactly one remote call per invocation. -/
theorem create_branch_ref_failure_and_single_remote_call :
    (∀ (client : GitHubClient) (raw : RawArgs) (input : RepoInput) (e : String),
      decodeRepoInput raw = Except.ok input →
      input.operation = "create_branch" →
      client.getRef input.owner input.repo ("refs/heads/" ++ input.sourceBranch) =
        Except.error e →
      handleRepositoryOperation client raw =
        ((emptyResult, some e),
         [RemoteCall.getRef input.owner input.repo ("refs/heads/" ++ input.sourceBranch)]))
  ∧ (∀ (client : GitHubClient) (raw : RawArgs) (input : RepoInput),
      decodeRepoInput raw = Except.ok input →
      input.operation ∈ (["create", "delete", "update", "fork", "list_branches",
        "protect_branch"] : List String) →
      ((handleRepositoryOperation client raw).2).length = 1) := by
  constructor
  · intro client raw input e hdec hop href
    simp [handleRepositoryOperation, hdec, repoSwitch, hop, href]
  · intro client raw input hdec hmem
    rw [repo_trace_eq client raw input hdec]
    simp only [List.mem_cons, List.not_mem_nil, or_false] at hmem
    rcases hmem with h | h | h | h | h | h <;>
      · simp only [repoSwitch, h, String.reduceEq, reduceIte]
        split <;> simp

/-- Witness for claim C5: a failing ref resolution on a concrete
create_branch input propagates the error without a ref-creation call, and
a concrete fork invocation issues exactly one remote call. -/
theorem create_branch_ref_failure_and_single_remote_call_witness :
    handleRepositoryOperation clientRefFail
      (RawArgs.wellFormed (Json.obj [("operation", Json.str "create_branch"),
        ("owner", Json.str "o"), ("repo", Json.str "r"),
        ("branch", Json.str "b"), ("source_branch", Json.str "s")])) =
      ((emptyResult, some "404 Not Found"),
       [RemoteCall.getRef "o" "r" ("refs/heads/" ++ "s")]) ∧
    ((handleRepositoryOperation clientAllOk
      (RawArgs.wellFormed (Json.obj [("operation", Json.str "fork"),
        ("owner", Json.str "o"), ("repo", Json.str "r")]))).2).length = 1 :=
  ⟨create_branch_ref_failure_and_single_remote_call.1 clientRefFail
      (RawArgs.wellFormed (Json.obj [("operation", Json.str "create_branch"),
        ("owner", Json.str "o"), ("repo", Json.str "r"),
        ("branch", Json.str "b"), ("source_branch", Json.str "s")]))
      ⟨"create_branch", "o", "r", "", false, "b", "s"⟩ "404 Not Found" rfl rfl rfl,
   create_branch_ref_failure_and_single_remote_call.2 clientAllOk
      (RawArgs.wellFormed (Json.obj [("operation", Json.str "fork"),
        ("owner", Json.str "o"), ("repo", Json.str "r")]))
      ⟨"fork", "o", "r", "", false, "", ""⟩ rfl (by decide)⟩

/-- Claim C10: every protect_branch invocation sends a branch-protection
request with Strict=true and a required approving review count of exactly
1, regardless of every decoded input field other than owner, repo and
branch. -/
theorem protect_branch_request_constants
    (client : GitHubClient) (raw : RawArgs) (input : RepoInput)
    (hdec : decodeRepoInput raw = Except.ok input)
    (hop : input.operation = "protect_branch") :
    (handleRepositoryOperation client raw).2 =
      [RemoteCall.updateBranchProtection input.owner input.repo input.branch ⟨true, 1⟩] := by
  rw [repo_trace_eq client raw input hdec]
  simp only [repoSwitch, hop]
  simp only [String.reduceEq, reduceIte]
  split <;> rfl

/-- Witness for claim C10: a concrete protect_branch invocation issues
exactly one UpdateBranchProtection call with Strict=true and review count
1. -/
theorem protect_branch_request_constants_witness :
    (handleRepositoryOperation clientAllOk
      (RawArgs.wellFormed (Json.obj [("operation", Json.str "protect_branch"),
        ("owner", Json.str "o"), ("repo", Json.str "r"),
        ("branch", Json.str "b")]))).2 =
      [RemoteCall.updateBranchProtection "o" "r" "b" ⟨true, 1⟩] :=
  protect_branch_request_constants clientAllOk
    (RawArgs.wellFormed (Json.obj [("operation", Json.str "protect_branch"),
      ("owner", Json.str "o"), ("repo", Json.str "r"), ("branch", Json.str "b")]))
    ⟨"protect_branch", "o", "r", "", false, "b", ""⟩ rfl rfl

/-- Claim C7: for every well-formed bash tool input the spawned argument
vector is exactly bash, -c, command, args... in order, and for every
well-formed git tool input it is exactly git, -C, repo_path, command,
args... in order. -/
theorem spawned_argument_vectors :
    (∀ (ex : Executor) (raw : RawArgs) (input : BashInput),
      decodeBashInput raw = Except.ok input →
      (BashHandler ex raw).2 = [["bash", "-c", input.command] ++ input.args])
  ∧ (∀ (cfg : GitConfig) (ex : Executor) (raw : RawArgs) (input : GitInput),
      decodeGitInput raw = Except.ok input →
      (GitHandler cfg ex raw).2 =
        [["git", "-C", input.repoPath, input.command] ++ input.args]) := by
  constructor
  · intro ex raw input hdec
    simp only [BashHandler, hdec]
    split <;> simp
  · intro cfg ex raw input hdec
    simp only [GitHandler, hdec]
    split <;> simp

/-- Witness for claim C7: concrete bash and git invocations spawn exactly
the stated argument vectors. -/
theorem spawned_argument_vectors_witness :
    (BashHandler execHi (RawArgs.wellFormed (Json.obj [("command", Json.str "echo hi"),
        ("args", Json.arr [Json.str "x"])]))).2 =
      [["bash", "-c", "echo hi"] ++ ["x"]] ∧
    (GitHandler ⟨"", []⟩ execHi (RawArgs.wellFormed (Json.obj [("command", Json.str "status"),
        ("repo_path", Json.str "/tmp/repo")]))).2 =
      [["git", "-C", "/tmp/repo", "status"] ++ []] :=
  ⟨spawned_argument_vectors.1 execHi
      (RawArgs.wellFormed (Json.obj [("command", Json.str "echo hi"),
        ("args", Json.arr [Json.str "x"])])) ⟨"echo hi", ["x"]⟩ rfl,
   spawned_argument_vectors.2 ⟨"", []⟩ execHi
      (RawArgs.wellFormed (Json.obj [("command", Json.str "status"),
        ("repo_path", Json.str "/tmp/repo")])) ⟨"status", "/tmp/repo", []⟩ rfl⟩

/-- Claim C8: the git handler result is independent of the BlockedCommands
configuration: two GitConfig values that agree on DefaultRepoPath yield
identical handler results on every input, so no denylist is enforced. -/
theorem git_handler_ignores_blocked_commands
    (cfg1 cfg2 : GitConfig) (hsame : cfg1.defaultRepoPath = cfg2.defaultRepoPath)
    (ex : Executor) (raw : RawArgs) :
    GitHandler cfg1 ex raw = GitHandler cfg2 ex raw := rfl

/-- Witness for claim C8: two configurations differing only in
BlockedCommands give identical results on a concrete input. -/
theorem git_handler_ignores_blocked_commands_witness :
    GitHandler ⟨"/tmp/repo", []⟩ execHi
      (RawArgs.wellFormed (Json.obj [("command", Json.str "status"),
        ("repo_path", Json.str "/tmp/repo")])) =
    GitHandler ⟨"/tmp/repo", ["push", "reset"]⟩ execHi
      (RawArgs.wellFormed (Json.obj [("command", Json.str "status"),
        ("repo_path", Json.str "/tmp/repo")])) :=
  git_handler_ignores_blocked_commands ⟨"/tmp/repo", []⟩ ⟨"/tmp/repo", ["push", "reset"]⟩
    rfl execHi
    (RawArgs.wellFormed (Json.obj [("command", Json.str "status"),
      ("repo_path", Json.str "/tmp/repo")]))

/-- Every early return of the switch either carries a non-nil Go error
(the create_branch ref-resolution failure) or an is_error=true envelope
(the unsupported-operation failure). -/
theorem repoSwitch_earlyReturn_shape (client : GitHubClient) (input : RepoInput)
    (res : CallToolResult) (goErr : Option String) (t : List RemoteCall)
    (h : repoSwitch client input = (RepoOutcome.earlyReturn res goErr, t)) :
    goErr ≠ none ∨ res.isError = true := by
  unfold repoSwitch at h
  repeat' split at h
  all_goals
    try (cases hc : client.getRef input.owner input.repo ("refs/heads/" ++ input.sourceBranch) <;>
      simp only [hc] at h)
  all_goals
    try (cases hc : client.updateBranchProtection input.owner input.repo input.branch ⟨true, 1⟩ <;>
      simp only [hc] at h)
  all_goals simp_all [returnErrorOutput, emptyResult]
  all_goals first
    | exact Or.inl (by rw [← h.1.2]; simp)
    | exact h.1.1 ▸ rfl

/-- Claim C9: every success return (nil Go error, is_error=false) of every
tool handler carries exactly one content element, typed text for
get_weather, bash and git, and typed json for the github repository
tool. -/
theorem success_envelope_single_content :
    (∀ (ex : Executor) (raw : RawArgs),
      (BashHandler ex raw).1.2 = none → (BashHandler ex raw).1.1.isError = false →
      ((BashHandler ex raw).1.1.content).map ToolResultContent.type = ["text"])
  ∧ (∀ (cfg : GitConfig) (ex : Executor) (raw : RawArgs),
      (GitHandler cfg ex raw).1.2 = none → (GitHandler cfg ex raw).1.1.isError = false →
      ((GitHandler cfg ex raw).1.1.content).map ToolResultContent.type = ["text"])
  ∧ (∀ raw : RawArgs,
      (GetWeatherHandler raw).2 = none → (GetWeatherHandler raw).1.isError = false →
      ((GetWeatherHandler raw).1.content).map ToolResultContent.type = ["text"])
  ∧ (∀ (client : GitHubClient) (raw : RawArgs),
      (handleRepositoryOperation client raw).1.2 = none →
      (handleRepositoryOperation client raw).1.1.isError = false →
      ((handleRepositoryOperation client raw).1.1.content).map ToolResultContent.type =
        ["json"]) := by
  refine ⟨?_, ?_, ?_, ?_⟩
  · intro ex raw h2 hie
    cases hdec : decodeBashInput raw with
    | error e => simp [BashHandler, hdec] at h2
    | ok input =>
        simp only [BashHandler, hdec]
        cases herr : (ex ("bash" :: (["-c", input.command] ++ input.args))).err with
        | some e => simp [herr, returnErrorOutput]
        | none => simp [herr]
  · intro cfg ex raw h2 hie
    cases hdec : decodeGitInput raw with
    | error e => simp [GitHandler, hdec] at h2
    | ok input =>
        simp only [GitHandler, hdec]
        cases herr : (ex ("git" :: (["-C", input.repoPath, input.command] ++ input.args))).err with
        | some e => simp [herr, returnErrorOutput]
        | none => simp [herr]
  · intro raw h2 hie
    cases hdec : decodeWeatherInput raw with
    | error e => simp [GetWeatherHandler, hdec] at h2
    | ok input => simp [GetWeatherHandler, hdec]
  · intro client raw h2 hie
    cases hdec : decodeRepoInput raw with
    | error e => simp [handleRepositoryOperation, hdec] at h2
    | ok input =>
        rcases hsw : repoSwitch client input with ⟨o, t⟩
        cases o with
        | done r => simp [handleRepositoryOperation, hdec, hsw]
        | failed e => simp [handleRepositoryOperation, hdec, hsw, returnErrorOutput] at hie
        | earlyReturn res goErr =>
            simp only [handleRepositoryOperation, hdec, hsw] at h2 hie
            rcases repoSwitch_earlyReturn_shape client input res goErr t hsw with hg | hr
            · exact absurd h2 hg
            · simp_all

/-- Witness for claim C9: concrete successful invocations of all four
tools carry exactly one content element with the stated type. -/
theorem success_envelope_single_content_witness :
    ((BashHandler execHi (RawArgs.wellFormed (Json.obj [("command", Json.str "echo hi")]))).1.1.content).map
        ToolResultContent.type = ["text"] ∧
    ((GitHandler ⟨"", []⟩ execHi (RawArgs.wellFormed (Json.obj [("command", Json.str "status"),
        ("repo_path", Json.str "/tmp/repo")]))).1.1.content).map
        ToolResultContent.type = ["text"] ∧
    ((GetWeatherHandler (RawArgs.wellFormed (Json.obj [("location", Json.str "Oslo")]))).1.content).map
        ToolResultContent.type = ["text"] ∧
    ((handleRepositoryOperation clientAllOk (RawArgs.wellFormed (Json.obj [("operation", Json.str "fork"),
        ("owner", Json.str "o"), ("repo", Json.str "r")]))).1.1.content).map
        ToolResultContent.type = ["json"] :=
  ⟨success_envelope_single_content.1 execHi
      (RawArgs.wellFormed (Json.obj [("command", Json.str "echo hi")])) rfl rfl,
   success_envelope_single_content.2.1 ⟨"", []⟩ execHi
      (RawArgs.wellFormed (Json.obj [("command", Json.str "status"),
        ("repo_path", Json.str "/tmp/repo")])) rfl rfl,
   success_envelope_single_content.2.2.1
      (RawArgs.wellFormed (Json.obj [("location", Json.str "Oslo")])) rfl rfl,
   success_envelope_single_content.2.2.2 clientAllOk
      (RawArgs.wellFormed (Json.obj [("operation", Json.str "fork"),
        ("owner", Json.str "o"), ("repo", Json.str "r")])) rfl rfl⟩

/-- Counterexample to claim C3: on a git invocation whose spawned process
fails with captured combined output "fatal: not a git repository (or any
of the parent directories): .git" and exec error "exit status 128", the
envelope text payload is exactly the exec error message; the captured
output is not included in it. -/
theorem git_failure_envelope_lacks_output :
    (GitHandler ⟨"", []⟩ execGitFail
      (RawArgs.wellFormed (Json.obj [("command", Json.str "status"),
        ("repo_path", Json.str "/tmp/nonexistent")]))).1 =
      (⟨[⟨"text", "exit status 128"⟩], true⟩, none) ∧
    strContains "exit status 128"
      "fatal: not a git repository (or any of the parent directories): .git\n" = false :=
  ⟨rfl, by decide⟩

/-- Claim C3 as amended: on a failed spawned process the bash and git
handlers return an is_error=true envelope with a nil Go error whose
single text payload is exactly the message of the execution error; the
captured combined output is discarded from the envelope (it is only
logged). -/
theorem process_failure_wraps_exec_error :
    (∀ (ex : Executor) (raw : RawArgs) (input : BashInput) (e : String),
      decodeBashInput raw = Except.ok input →
      (ex ("bash" :: "-c" :: input.command :: input.args)).err = some e →
      (BashHandler ex raw).1 = (returnErrorOutput e, none))
  ∧ (∀ (cfg : GitConfig) (ex : Executor) (raw : RawArgs) (input : GitInput) (e : String),
      decodeGitInput raw = Except.ok input →
      (ex ("git" :: "-C" :: input.repoPath :: input.command :: input.args)).err = some e →
      (GitHandler cfg ex raw).1 = (returnErrorOutput e, none)) := by
  constructor
  · intro ex raw input e hdec herr
    simp [BashHandler, hdec, herr]
  · intro cfg ex raw input e hdec herr
    simp [GitHandler, hdec, herr]

/-- Witness for claim C3 as amended: concrete failing bash and git
invocations return exactly the exec error message in the envelope. -/
theorem process_failure_wraps_exec_error_witness :
    (BashHandler execGitFail
      (RawArgs.wellFormed (Json.obj [("command", Json.str "git status")]))).1 =
      (returnErrorOutput "exit status 128", none) ∧
    (GitHandler ⟨"", []⟩ execGitFail
      (RawArgs.wellFormed (Json.obj [("command", Json.str "status"),
        ("repo_path", Json.str "/tmp/nonexistent")]))).1 =
      (returnErrorOutput "exit status 128", none) :=
  ⟨process_failure_wraps_exec_error.1 execGitFail
      (RawArgs.wellFormed (Json.obj [("command", Json.str "git status")]))
      ⟨"git status", []⟩ "exit status 128" rfl rfl,
   process_failure_wraps_exec_error.2 ⟨"", []⟩ execGitFail
      (RawArgs.wellFormed (Json.obj [("command", Json.str "status"),
        ("repo_path", Json.str "/tmp/nonexistent")]))
      ⟨"status", "/tmp/nonexistent", []⟩ "exit status 128" rfl rfl⟩

/-- Counterexample to claim C6: the well-formed empty object payload omits
the schema-required field command, yet the bash decode succeeds with a
zero-valued command and the handler proceeds, returning a success
envelope and a nil Go error. -/
theorem missing_required_field_still_decodes :
    decodeBashInput (RawArgs.wellFormed (Json.obj [])) = Except.ok ⟨"", []⟩ ∧
    (BashHandler execHi (RawArgs.wellFormed (Json.obj []))).1 =
      (⟨[⟨"text", "hi\n"⟩], false⟩, none) :=
  ⟨rfl, rfl⟩

/-- An Except bind yields ok only through an ok of its first component. -/
theorem except_bind_ok {α β : Type} {x : Except String α} {f : α → Except String β} {b : β}
    (h : x >>= f = Except.ok b) : ∃ a, x = Except.ok a ∧ f a = Except.ok b := by
  cases x with
  | error e => simp [Bind.bind, Except.bind] at h
  | ok a => exact ⟨a, rfl, by simpa [Bind.bind, Except.bind] using h⟩

/-- An Except bind fails only through one of its two components. -/
theorem except_bind_err {α β : Type} {x : Except String α} {f : α → Except String β}
    (h : isErr (x >>= f) = true) :
    isErr x = true ∨ ∃ a, x = Except.ok a ∧ isErr (f a) = true := by
  cases x with
  | error e => left; rfl
  | ok a => right; exact ⟨a, rfl, by simpa [Bind.bind, Except.bind] using h⟩

/-- An absent key decodes to the zero string value. -/
theorem decodeStrField_absent (fs : List (String × Json)) (key : String)
    (h : jsonLookup fs key = none) : decodeStrField fs key = Except.ok "" := by
  simp [decodeStrField, h]

/-- A failing string field decode means the key is present with a value
that is neither null nor a string. -/
theorem decodeStrField_err_present (fs : List (String × Json)) (key : String)
    (h : isErr (decodeStrField fs key) = true) :
    ∃ v, jsonLookup fs key = some v ∧ v ≠ Json.null ∧ ∀ s, v ≠ Json.str s := by
  unfold decodeStrField at h
  cases hl : jsonLookup fs key with
  | none => rw [hl] at h; simp [isErr] at h
  | some v =>
      rw [hl] at h
      refine ⟨v, rfl, ?_⟩
      cases v <;> simp_all [isErr]

/-- A failing bool field decode means the key is present with a value
that is neither null nor a bool. -/
theorem decodeBoolField_err_present (fs : List (String × Json)) (key : String)
    (h : isErr (decodeBoolField fs key) = true) :
    ∃ v, jsonLookup fs key = some v ∧ v ≠ Json.null ∧ ∀ b, v ≠ Json.bool b := by
  unfold decodeBoolField at h
  cases hl : jsonLookup fs key with
  | none => rw [hl] at h; simp [isErr] at h
  | some v =>
      rw [hl] at h
      refine ⟨v, rfl, ?_⟩
      cases v <;> simp_all [isErr]

/-- A failing []string element decode means the element is neither null
nor a string. -/
theorem decodeStrElem_err (x : Json) (h : isErr (decodeStrElem x) = true) :
    x ≠ Json.null ∧ ∀ s, x ≠ Json.str s := by
  cases x <;> simp_all [decodeStrElem, isErr]

/-- A failing elementwise decode of a JSON array has a failing element. -/
theorem mapM_decodeStrElem_err (xs : List Json)
    (h : isErr (xs.mapM decodeStrElem) = true) :
    ∃ x ∈ xs, x ≠ Json.null ∧ ∀ s, x ≠ Json.str s := by
  induction xs with
  | nil => simp [List.mapM, List.mapM.loop, pure, Except.pure, isErr] at h
  | cons x xs ih =>
      rw [List.mapM_cons] at h
      rcases except_bind_err h with hx | ⟨y, hy, hrest⟩
      · exact ⟨x, by simp, decodeStrElem_err x hx⟩
      · rcases except_bind_err hrest with hxs | ⟨ys, hys, hp⟩
        · obtain ⟨v, hmem, hv⟩ := ih hxs
          exact ⟨v, by simp [hmem], hv⟩
        · simp [isErr, pure, Except.pure] at hp

/-- A failing []string field decode means the key is present with a value
that is neither null nor a well-typed array: either not an array at all,
or an array with an element that is neither null nor a string. -/
theorem decodeStrListField_err_present (fs : List (String × Json)) (key : String)
    (h : isErr (decodeStrListField fs key) = true) :
    ∃ v, jsonLookup fs key = some v ∧ v ≠ Json.null ∧
      ((∀ xs, v ≠ Json.arr xs) ∨
       ∃ xs, v = Json.arr xs ∧ ∃ x ∈ xs, x ≠ Json.null ∧ ∀ s, x ≠ Json.str s) := by
  unfold decodeStrListField at h
  cases hl : jsonLookup fs key with
  | none => rw [hl] at h; simp [isErr] at h
  | some v =>
      rw [hl] at h
      refine ⟨v, rfl, ?_⟩
      cases v with
      | null => simp [isErr] at h
      | arr xs => exact ⟨by simp, Or.inr ⟨xs, rfl, mapM_decodeStrElem_err xs h⟩⟩
      | bool b => exact ⟨by simp, Or.inl (by simp)⟩
      | num n => exact ⟨by simp, Or.inl (by simp)⟩
      | str s => exact ⟨by simp, Or.inl (by simp)⟩
      | obj gs => exact ⟨by simp, Or.inl (by simp)⟩

/-- A successful bash decode decodes each struct field from its key. -/
theorem decodeBashInput_fields (fs : List (String × Json)) (input : BashInput)
    (h : decodeBashInput (RawArgs.wellFormed (Json.obj fs)) = Except.ok input) :
    decodeStrField fs "command" = Except.ok input.command ∧
    decodeStrListField fs "args" = Except.ok input.args := by
  simp only [decodeBashInput] at h
  obtain ⟨c, hc, h1⟩ := except_bind_ok h
  obtain ⟨a, ha, h2⟩ := except_bind_ok h1
  obtain rfl : BashInput.mk c a = input := by simpa using h2
  exact ⟨hc, ha⟩

/-- A successful git decode decodes each struct field from its key. -/
theorem decodeGitInput_fields (fs : List (String × Json)) (input : GitInput)
    (h : decodeGitInput (RawArgs.wellFormed (Json.obj fs)) = Except.ok input) :
    decodeStrField fs "command" = Except.ok input.command ∧
    decodeStrField fs "repo_path" = Except.ok input.repoPath ∧
    decodeStrListField fs "args" = Except.ok input.args := by
  simp only [decodeGitInput] at h
  obtain ⟨c, hc, h1⟩ := except_bind_ok h
  obtain ⟨p, hp, h2⟩ := except_bind_ok h1
  obtain ⟨a, ha, h3⟩ := except_bind_ok h2
  obtain rfl : GitInput.mk c p a = input := by simpa using h3
  exact ⟨hc, hp, ha⟩

/-- A successful weather decode decodes the location field from its key. -/
theorem decodeWeatherInput_fields (fs : List (String × Json)) (input : WeatherInput)
    (h : decodeWeatherInput (RawArgs.wellFormed (Json.obj fs)) = Except.ok input) :
    decodeStrField fs "location" = Except.ok input.location := by
  simp only [decodeWeatherInput] at h
  obtain ⟨l, hl, h1⟩ := except_bind_ok h
  obtain rfl : WeatherInput.mk l = input := by simpa using h1
  exact hl

/-- A successful repository decode decodes the operation field from its
key. -/
theorem decodeRepoInput_fields (fs : List (String × Json)) (input : RepoInput)
    (h : decodeRepoInput (RawArgs.wellFormed (Json.obj fs)) = Except.ok input) :
    decodeStrField fs "operation" = Except.ok input.operation := by
  simp only [decodeRepoInput] at h
  obtain ⟨op, hop, h1⟩ := except_bind_ok h
  obtain ⟨ow, how, h2⟩ := except_bind_ok h1
  obtain ⟨re, hre, h3⟩ := except_bind_ok h2
  obtain ⟨de, hde, h4⟩ := except_bind_ok h3
  obtain ⟨pr, hpr, h5⟩ := except_bind_ok h4
  obtain ⟨br, hbr, h6⟩ := except_bind_ok h5
  obtain ⟨sb, hsb, h7⟩ := except_bind_ok h6
  obtain rfl : RepoInput.mk op ow re de pr br sb = input := by simpa using h7
  exact hop

/-- Claim C6 as amended: a well-formed JSON object payload that omits a
schema-required field still decodes successfully whenever its present
fields are well-typed, with the omitted field at its Go zero value, and
the handler then proceeds with a nil Go error instead of returning the
empty-envelope transport failure; dually, the decode step of each tool
fails only for malformed JSON, a non-object non-null top-level value, or
a present field whose value mismatches the field type. -/
theorem missing_fields_zero_valued_proceed :
    (∀ (ex : Executor) (fs : List (String × Json)) (input : BashInput),
      jsonLookup fs "command" = none →
      decodeBashInput (RawArgs.wellFormed (Json.obj fs)) = Except.ok input →
      input.command = "" ∧
      (BashHandler ex (RawArgs.wellFormed (Json.obj fs))).1.2 = none)
  ∧ (∀ (cfg : GitConfig) (ex : Executor) (fs : List (String × Json)) (input : GitInput),
      jsonLookup fs "repo_path" = none →
      decodeGitInput (RawArgs.wellFormed (Json.obj fs)) = Except.ok input →
      input.repoPath = "" ∧
      (GitHandler cfg ex (RawArgs.wellFormed (Json.obj fs))).1.2 = none)
  ∧ (∀ (fs : List (String × Json)) (input : WeatherInput),
      jsonLookup fs "location" = none →
      decodeWeatherInput (RawArgs.wellFormed (Json.obj fs)) = Except.ok input →
      input.location = "" ∧
      (GetWeatherHandler (RawArgs.wellFormed (Json.obj fs))).2 = none)
  ∧ (∀ (client : GitHubClient) (fs : List (String × Json)) (input : RepoInput),
      jsonLookup fs "operation" = none →
      decodeRepoInput (RawArgs.wellFormed (Json.obj fs)) = Except.ok input →
      input.operation = "" ∧
      (handleRepositoryOperation client (RawArgs.wellFormed (Json.obj fs))).1.2 = none)
  ∧ (∀ raw : RawArgs, isErr (decodeBashInput raw) = true →
      (∃ t, raw = RawArgs.malformed t) ∨
      (∃ j, raw = RawArgs.wellFormed j ∧ j ≠ Json.null ∧ ∀ gs, j ≠ Json.obj gs) ∨
      (∃ fs, raw = RawArgs.wellFormed (Json.obj fs) ∧
        (isErr (decodeStrField fs "command") = true ∨
         isErr (decodeStrListField fs "args") = true)))
  ∧ (∀ raw : RawArgs, isErr (decodeGitInput raw) = true →
      (∃ t, raw = RawArgs.malformed t) ∨
      (∃ j, raw = RawArgs.wellFormed j ∧ j ≠ Json.null ∧ ∀ gs, j ≠ Json.obj gs) ∨
      (∃ fs, raw = RawArgs.wellFormed (Json.obj fs) ∧
        (isErr (decodeStrField fs "command") = true ∨
         isErr (decodeStrField fs "repo_path") = true ∨
         isErr (decodeStrListField fs "args") = true)))
  ∧ (∀ raw : RawArgs, isErr (decodeWeatherInput raw) = true →
      (∃ t, raw = RawArgs.malformed t) ∨
      (∃ j, raw = RawArgs.wellFormed j ∧ j ≠ Json.null ∧ ∀ gs, j ≠ Json.obj gs) ∨
      (∃ fs, raw = RawArgs.wellFormed (Json.obj fs) ∧
        isErr (decodeStrField fs "location") = true))
  ∧ (∀ raw : RawArgs, isErr (decodeRepoInput raw) = true →
      (∃ t, raw = RawArgs.malformed t) ∨
      (∃ j, raw = RawArgs.wellFormed j ∧ j ≠ Json.null ∧ ∀ gs, j ≠ Json.obj gs) ∨
      (∃ fs, raw = RawArgs.wellFormed (Json.obj fs) ∧
        (isErr (decodeStrField fs "operation") = true ∨
         isErr (decodeStrField fs "owner") = true ∨
         isErr (decodeStrField fs "repo") = true ∨
         isErr (decodeStrField fs "description") = true ∨
         isErr (decodeBoolField fs "private") = true ∨
         isErr (decodeStrField fs "branch") = true ∨
         isErr (decodeStrField fs "source_branch") = true)))
  ∧ (∀ (fs : List (String × Json)) (key : String),
      isErr (decodeStrField fs key) = true →
      ∃ v, jsonLookup fs key = some v ∧ v ≠ Json.null ∧ ∀ s, v ≠ Json.str s)
  ∧ (∀ (fs : List (String × Json)) (key : String),
      isErr (decodeBoolField fs key) = true →
      ∃ v, jsonLookup fs key = some v ∧ v ≠ Json.null ∧ ∀ b, v ≠ Json.bool b)
  ∧ (∀ (fs : List (String × Json)) (key : String),
      isErr (decodeStrListField fs key) = true →
      ∃ v, jsonLookup fs key = some v ∧ v ≠ Json.null ∧
        ((∀ xs, v ≠ Json.arr xs) ∨
         ∃ xs, v = Json.arr xs ∧ ∃ x ∈ xs, x ≠ Json.null ∧ ∀ s, x ≠ Json.str s)) := by
  refine ⟨?_, ?_, ?_, ?_, ?_, ?_, ?_, ?_,
    decodeStrField_err_present, decodeBoolField_err_present, decodeStrListField_err_present⟩
  · intro ex fs input hl hdec
    obtain ⟨hc, -⟩ := decodeBashInput_fields fs input hdec
    rw [decodeStrField_absent fs "command" hl] at hc
    refine ⟨by simpa using hc.symm, ?_⟩
    simp only [BashHandler, hdec]
    cases herr : (ex ("bash" :: (["-c", input.command] ++ input.args))).err <;> simp [herr]
  · intro cfg ex fs input hl hdec
    obtain ⟨-, hp, -⟩ := decodeGitInput_fields fs input hdec
    rw [decodeStrField_absent fs "repo_path" hl] at hp
    refine ⟨by simpa using hp.symm, ?_⟩
    simp only [GitHandler, hdec]
    cases herr : (ex ("git" :: (["-C", input.repoPath, input.command] ++ input.args))).err <;>
      simp [herr]
  · intro fs input hl hdec
    have hloc := decodeWeatherInput_fields fs input hdec
    rw [decodeStrField_absent fs "location" hl] at hloc
    exact ⟨by simpa using hloc.symm, by simp [GetWeatherHandler, hdec]⟩
  · intro client fs input hl hdec
    have hop := decodeRepoInput_fields fs input hdec
    rw [decodeStrField_absent fs "operation" hl] at hop
    have hzero : input.operation = "" := by simpa using hop.symm
    refine ⟨hzero, ?_⟩
    simp [handleRepositoryOperation, hdec, repoSwitch, hzero]
  · intro raw h
    cases raw with
    | malformed t => exact Or.inl ⟨t, rfl⟩
    | wellFormed j =>
        cases j with
        | null => simp [decodeBashInput, isErr] at h
        | obj fs =>
            refine Or.inr (Or.inr ⟨fs, rfl, ?_⟩)
            simp only [decodeBashInput] at h
            rcases except_bind_err h with h1 | ⟨c, hc, h2⟩
            · exact Or.inl h1
            · rcases except_bind_err h2 with h3 | ⟨a, ha, h4⟩
              · exact Or.inr h3
              · simp [isErr] at h4
        | bool b => exact Or.inr (Or.inl ⟨Json.bool b, rfl, by simp, by simp⟩)
        | num n => exact Or.inr (Or.inl ⟨Json.num n, rfl, by simp, by simp⟩)
        | str s => exact Or.inr (Or.inl ⟨Json.str s, rfl, by simp, by simp⟩)
        | arr xs => exact Or.inr (Or.inl ⟨Json.arr xs, rfl, by simp, by simp⟩)
  · intro raw h
    cases raw with
    | malformed t => exact Or.inl ⟨t, rfl⟩
    | wellFormed j =>
        cases j with
        | null => simp [decodeGitInput, isErr] at h
        | obj fs =>
            refine Or.inr (Or.inr ⟨fs, rfl, ?_⟩)
            simp only [decodeGitInput] at h
            rcases except_bind_err h with h1 | ⟨c, hc, h2⟩
            · exact Or.inl h1
            · rcases except_bind_err h2 with h3 | ⟨p, hp, h4⟩
              · exact Or.inr (Or.inl h3)
              · rcases except_bind_err h4 with h5 | ⟨a, ha, h6⟩
                · exact Or.inr (Or.inr h5)
                · simp [isErr] at h6
        | bool b => exact Or.inr (Or.inl ⟨Json.bool b, rfl, by simp, by simp⟩)
        | num n => exact Or.inr (Or.inl ⟨Json.num n, rfl, by simp, by simp⟩)
        | str s => exact Or.inr (Or.inl ⟨Json.str s, rfl, by simp, by simp⟩)
        | arr xs => exact Or.inr (Or.inl ⟨Json.arr xs, rfl, by simp, by simp⟩)
  · intro raw h
    cases raw with
    | malformed t => exact Or.inl ⟨t, rfl⟩
    | wellFormed j =>
        cases j with
        | null => simp [decodeWeatherInput, isErr] at h
        | obj fs =>
            refine Or.inr (Or.inr ⟨fs, rfl, ?_⟩)
            simp only [decodeWeatherInput] at h
            rcases except_bind_err h with h1 | ⟨l, hl, h2⟩
            · exact h1
            · simp [isErr] at h2
        | bool b => exact Or.inr (Or.inl ⟨Json.bool b, rfl, by simp, by simp⟩)
        | num n => exact Or.inr (Or.inl ⟨Json.num n, rfl, by simp, by simp⟩)
        | str s => exact Or.inr (Or.inl ⟨Json.str s, rfl, by simp, by simp⟩)
        | arr xs => exact Or.inr (Or.inl ⟨Json.arr xs, rfl, by simp, by simp⟩)
  · intro raw h
    cases raw with
    | malformed t => exact Or.inl ⟨t, rfl⟩
    | wellFormed j =>
        cases j with
        | null => simp [decodeRepoInput, isErr] at h
        | obj fs =>
            refine Or.inr (Or.inr ⟨fs, rfl, ?_⟩)
            simp only [decodeRepoInput] at h
            rcases except_bind_err h with h1 | ⟨op, hop, h2⟩
            · exact Or.inl h1
            · rcases except_bind_err h2 with h3 | ⟨ow, how, h4⟩
              · exact Or.inr (Or.inl h3)
              · rcases except_bind_err h4 with h5 | ⟨re, hre, h6⟩
                · exact Or.inr (Or.inr (Or.inl h5))
                · rcases except_bind_err h6 with h7 | ⟨de, hde, h8⟩
                  · exact Or.inr (Or.inr (Or.inr (Or.inl h7)))
                  · rcases except_bind_err h8 with h9 | ⟨pr, hpr, h10⟩
                    · exact Or.inr (Or.inr (Or.inr (Or.inr (Or.inl h9))))
                    · rcases except_bind_err h10 with h11 | ⟨br, hbr, h12⟩
                      · exact Or.inr (Or.inr (Or.inr (Or.inr (Or.inr (Or.inl h11)))))
                      · rcases except_bind_err h12 with h13 | ⟨sb, hsb, h14⟩
                        · exact Or.inr (Or.inr (Or.inr (Or.inr (Or.inr (Or.inr h13)))))
                        · simp [isErr] at h14
        | bool b => exact Or.inr (Or.inl ⟨Json.bool b, rfl, by simp, by simp⟩)
        | num n => exact Or.inr (Or.inl ⟨Json.num n, rfl, by simp, by simp⟩)
        | str s => exact Or.inr (Or.inl ⟨Json.str s, rfl, by simp, by simp⟩)
        | arr xs => exact Or.inr (Or.inl ⟨Json.arr xs, rfl, by simp, by simp⟩)

/-- Witness for claim C6 as amended: concrete payloads omitting the
required command, repo_path, location and operation fields decode to zero
values with the handler proceeding, concrete type-mismatched payloads
fail the decode through the stated causes, and concrete mismatched fields
are characterized as present non-null wrong-typed values. -/
theorem missing_fields_zero_valued_proceed_witness :
    ((⟨"", ["x"]⟩ : BashInput).command = "" ∧
      (BashHandler execHi
        (RawArgs.wellFormed (Json.obj [("args", Json.arr [Json.str "x"])]))).1.2 = none)
  ∧ ((⟨"status", "", []⟩ : GitInput).repoPath = "" ∧
      (GitHandler ⟨"", []⟩ execHi
        (RawArgs.wellFormed (Json.obj [("command", Json.str "status")]))).1.2 = none)
  ∧ ((⟨""⟩ : WeatherInput).location = "" ∧
      (GetWeatherHandler (RawArgs.wellFormed (Json.obj []))).2 = none)
  ∧ ((⟨"", "o", "", "", false, "", ""⟩ : RepoInput).operation = "" ∧
      (handleRepositoryOperation clientAllOk
        (RawArgs.wellFormed (Json.obj [("owner", Json.str "o")]))).1.2 = none)
  ∧ ((∃ t, RawArgs.wellFormed (Json.obj [("command", Json.num 3)]) = RawArgs.malformed t) ∨
     (∃ j, RawArgs.wellFormed (Json.obj [("command", Json.num 3)]) = RawArgs.wellFormed j ∧
       j ≠ Json.null ∧ ∀ gs, j ≠ Json.obj gs) ∨
     (∃ fs, RawArgs.wellFormed (Json.obj [("command", Json.num 3)]) =
        RawArgs.wellFormed (Json.obj fs) ∧
       (isErr (decodeStrField fs "command") = true ∨
        isErr (decodeStrListField fs "args") = true)))
  ∧ ((∃ t, RawArgs.wellFormed (Json.obj [("repo_path", Json.bool true)]) =
        RawArgs.malformed t) ∨
     (∃ j, RawArgs.wellFormed (Json.obj [("repo_path", Json.bool true)]) =
        RawArgs.wellFormed j ∧ j ≠ Json.null ∧ ∀ gs, j ≠ Json.obj gs) ∨
     (∃ fs, RawArgs.wellFormed (Json.obj [("repo_path", Json.bool true)]) =
        RawArgs.wellFormed (Json.obj fs) ∧
       (isErr (decodeStrField fs "command") = true ∨
        isErr (decodeStrField fs "repo_path") = true ∨
        isErr (decodeStrListField fs "args") = true)))
  ∧ ((∃ t, RawArgs.wellFormed (Json.obj [("location", Json.num 7)]) = RawArgs.malformed t) ∨
     (∃ j, RawArgs.wellFormed (Json.obj [("location", Json.num 7)]) = RawArgs.wellFormed j ∧
       j ≠ Json.null ∧ ∀ gs, j ≠ Json.obj gs) ∨
     (∃ fs, RawArgs.wellFormed (Json.obj [("location", Json.num 7)]) =
        RawArgs.wellFormed (Json.obj fs) ∧
       isErr (decodeStrField fs "location") = true))
  ∧ ((∃ t, RawArgs.wellFormed (Json.obj [("private", Json.str "yes")]) =
        RawArgs.malformed t) ∨
     (∃ j, RawArgs.wellFormed (Json.obj [("private", Json.str "yes")]) =
        RawArgs.wellFormed j ∧ j ≠ Json.null ∧ ∀ gs, j ≠ Json.obj gs) ∨
     (∃ fs, RawArgs.wellFormed (Json.obj [("private", Json.str "yes")]) =
        RawArgs.wellFormed (Json.obj fs) ∧
       (isErr (decodeStrField fs "operation") = true ∨
        isErr (decodeStrField fs "owner") = true ∨
        isErr (decodeStrField fs "repo") = true ∨
        isErr (decodeStrField fs "description") = true ∨
        isErr (decodeBoolField fs "private") = true ∨
        isErr (decodeStrField fs "branch") = true ∨
        isErr (decodeStrField fs "source_branch") = true)))
  ∧ (∃ v, jsonLookup [("k", Json.num 1)] "k" = some v ∧ v ≠ Json.null ∧
      ∀ s, v ≠ Json.str s)
  ∧ (∃ v, jsonLookup [("k", Json.num 1)] "k" = some v ∧ v ≠ Json.null ∧
      ∀ b, v ≠ Json.bool b)
  ∧ (∃ v, jsonLookup [("k", Json.str "x")] "k" = some v ∧ v ≠ Json.null ∧
      ((∀ xs, v ≠ Json.arr xs) ∨
       ∃ xs, v = Json.arr xs ∧ ∃ x ∈ xs, x ≠ Json.null ∧ ∀ s, x ≠ Json.str s)) :=
  ⟨missing_fields_zero_valued_proceed.1 execHi
      [("args", Json.arr [Json.str "x"])] ⟨"", ["x"]⟩ rfl rfl,
   missing_fields_zero_valued_proceed.2.1 ⟨"", []⟩ execHi
      [("command", Json.str "status")] ⟨"status", "", []⟩ rfl rfl,
   missing_fields_zero_valued_proceed.2.2.1 [] ⟨""⟩ rfl rfl,
   missing_fields_zero_valued_proceed.2.2.2.1 clientAllOk
      [("owner", Json.str "o")] ⟨"", "o", "", "", false, "", ""⟩ rfl rfl,
   missing_fields_zero_valued_proceed.2.2.2.2.1
      (RawArgs.wellFormed (Json.obj [("command", Json.num 3)])) rfl,
   missing_fields_zero_valued_proceed.2.2.2.2.2.1
      (RawArgs.wellFormed (Json.obj [("repo_path", Json.bool true)])) rfl,
   missing_fields_zero_valued_proceed.2.2.2.2.2.2.1
      (RawArgs.wellFormed (Json.obj [("location", Json.num 7)])) rfl,
   missing_fields_zero_valued_proceed.2.2.2.2.2.2.2.1
      (RawArgs.wellFormed (Json.obj [("private", Json.str "yes")])) rfl,
   missing_fields_zero_valued_proceed.2.2.2.2.2.2.2.2.1 [("k", Json.num 1)] "k" rfl,
   missing_fields_zero_valued_proceed.2.2.2.2.2.2.2.2.2.1 [("k", Json.num 1)] "k" rfl,
   missing_fields_zero_valued_proceed.2.2.2.2.2.2.2.2.2.2 [("k", Json.str "x")] "k" rfl⟩

end McpTools
